import Mathlib

/-!
A verification development for the PhishDetect core: the URL feature
extractor `extract_features` (feature_extraction.py), the serving-side
`predict_URL` (app.py), and the column preprocessing of the two training
scripts (model.py and the notebook-checkpoint variant).

URLs are modelled as lists of characters (`Str`); Python string
operations become list operations.  The relevant slice of CPython's
`urllib.parse.urlparse` (netloc/path computation, current CPython
behaviour: leading C0-control/space stripping, tab/CR/LF removal, scheme
split requiring a leading ASCII letter, netloc split at `//`, fragment
and query split, params split for schemes in `uses_params`) is embedded
directly.  The only exception `urlparse` can raise on these code paths
is the `Invalid IPv6 URL` ValueError for a netloc containing `[` without
`]` or vice versa; the additional bracketed-host validation of newer
CPython (which only concerns netlocs containing both brackets) is not
modelled, and no input considered here contains brackets.  The
`_checknetloc` NFKC check never fires on ASCII input and is omitted.

Python's regexes in the source are: literal alternations (modelled as
substring search), and the dotted-quad pattern
`\b\d{1,3}\.\d{1,3}\.\d{1,3}\.\d{1,3}\b` (modelled as an explicit
matcher with backtracking over the group lengths 3, 2, 1).  Character
classes (`\w`, `isdigit`) are modelled at their ASCII meaning; all
feature-schema and relational theorems below are independent of the
class chosen.

The classifier artifact (a pickled sklearn model) is opaque to this
repository; it is modelled as an abstract `BinaryModel` producing a
label and a two-class probability pair, which is exactly the interface
`predict_URL` consumes (`model.predict`, `model.predict_proba`).
-/

namespace PhishDetect

/-- A Python `str` is modelled as its list of characters. -/
abbrev Str := List Char

/-- Python regex word character `\w` at its ASCII meaning:
alphanumeric or underscore.  `\W` is its negation. -/
def isWordChar (c : Char) : Bool := c.isAlphanum || c == '_'

/-- `b2i b` is the Python int of a boolean feature flag. -/
def b2i (b : Bool) : Int := if b then 1 else 0

/-- `re.search` for a literal pattern: does `pat` occur as a contiguous
substring of the subject?  (An empty pattern always matches.) -/
def containsSub (pat : Str) : Str → Bool
  | [] => pat.isEmpty
  | c :: s => pat.isPrefixOf (c :: s) || containsSub pat s

/-- The characters allowed in a URI scheme after the first
(`scheme_chars` in CPython's urllib.parse). -/
def schemeChars : Str :=
  "abcdefghijklmnopqrstuvwxyzABCDEFGHIJKLMNOPQRSTUVWXYZ0123456789+-.".data

/-- CPython `urlsplit` first strips leading WHATWG C0-control and space
characters (code points up to 0x20) from the URL. -/
def lstripControlSpace (s : Str) : Str := s.dropWhile (fun c => c ≤ ' ')

/-- CPython `urlsplit` removes every tab, CR and LF anywhere in the URL
(`_UNSAFE_URL_BYTES_TO_REMOVE`). -/
def removeUnsafe (s : Str) : Str :=
  s.filter (fun c => !(c == '\t' || c == '\r' || c == '\n'))

/-- The scheme split of CPython `urlsplit`: at the first `:`, provided it
is not the first character, the first character is an ASCII letter, and
everything before the `:` is a scheme character, the scheme is the
lowercased part before the `:` and the remainder follows it; otherwise
the scheme is empty and the URL is unchanged.  Returns
`(scheme, rest)`. -/
def splitScheme (u : Str) : Str × Str :=
  match u.findIdx? (fun c => c == ':') with
  | none => ([], u)
  | some i =>
      if 0 < i && u.headI.isAlpha
          && (u.take i).all (fun c => schemeChars.contains c) then
        ((u.take i).map Char.toLower, u.drop (i + 1))
      else ([], u)

/-- The netloc split of CPython `urlsplit` (`_splitnetloc`): when the
remainder after the scheme starts with `//`, the netloc extends to the
first `/`, `?` or `#` (exclusive); otherwise it is empty.  Returns
`(netloc, rest)` where `rest` keeps the delimiter. -/
def netlocAndRest (u : Str) : Str × Str :=
  match u with
  | '/' :: '/' :: rest =>
      (rest.takeWhile (fun c => !(c == '/' || c == '?' || c == '#')),
       rest.dropWhile (fun c => !(c == '/' || c == '?' || c == '#')))
  | _ => ([], u)

/-- `urlparse(url).netloc`, as used by `extract_features` for every
domain-derived feature. -/
def urlsplitNetloc (url : Str) : Str :=
  (netlocAndRest (splitScheme (removeUnsafe (lstripControlSpace url))).2).1

/-- The lowercased scheme component of `urlparse(url)` (needed only to
decide whether the params split applies to the path). -/
def urlsplitScheme (url : Str) : Str :=
  (splitScheme (removeUnsafe (lstripControlSpace url))).1

/-- CPython `urlsplit` raises `ValueError: Invalid IPv6 URL` when the
netloc contains `[` without `]` or `]` without `[`.  This is the only
exception `extract_features` can propagate on bracket-free-host input. -/
def urlparseRaises (url : Str) : Bool :=
  let n := urlsplitNetloc url
  n.contains '[' != n.contains ']'

/-- The schemes for which `urlparse` performs the params split
(`uses_params` in CPython, which includes the empty scheme). -/
def usesParams : List Str :=
  [[], "ftp".data, "hdl".data, "prospero".data, "http".data, "imap".data,
   "https".data, "shttp".data, "rtsp".data, "rtspu".data, "sip".data,
   "sips".data, "mms".data, "sftp".data, "tel".data]

/-- CPython `_splitparams` restricted to the path it returns: when the
path contains a `/`, a `;` at or after the last `/` truncates the path
there; with no `/` the path is truncated at its first `;`. -/
def splitparamsPath (p : Str) : Str :=
  if p.contains '/' then
    let tailLen := (p.reverse.takeWhile (fun c => c != '/')).length + 1
    let pre := p.take (p.length - tailLen)
    let suf := p.drop (p.length - tailLen)
    if suf.contains ';' then pre ++ suf.takeWhile (fun c => c != ';') else p
  else p.takeWhile (fun c => c != ';')

/-- `urlparse(url).path`, as used by `extract_features` for
`path_length`: the remainder after the netloc, truncated at the first
`#` and then at the first `?`, with the params split applied when the
scheme admits params and the path contains `;`. -/
def urlparsePath (url : Str) : Str :=
  let rest := (netlocAndRest (splitScheme (removeUnsafe (lstripControlSpace url))).2).2
  let p := (rest.takeWhile (fun c => c != '#')).takeWhile (fun c => c != '?')
  if usesParams.contains (urlsplitScheme url) && p.contains ';' then
    splitparamsPath p
  else p

/-- Consume exactly `k` decimal digits, returning the remainder. -/
def takeExactDigits : Nat → Str → Option Str
  | 0, s => some s
  | _ + 1, [] => none
  | k + 1, c :: s => if c.isDigit then takeExactDigits k s else none

/-- The trailing `\b` of the dotted-quad pattern: end of string or a
non-word character next. -/
def boundaryAfter : Str → Bool
  | [] => true
  | c :: _ => !(isWordChar c)

/-- The last `\d{1,3}\b` of the dotted-quad pattern, with backtracking
over the group length. -/
def ipLastGroup (s : Str) : Bool :=
  [3, 2, 1].any fun k =>
    match takeExactDigits k s with
    | some r => boundaryAfter r
    | none => false

/-- One `\d{1,3}\.` of the dotted-quad pattern, with backtracking over
the group length, continuing with `cont` after the dot. -/
def ipGroupDot (s : Str) (cont : Str → Bool) : Bool :=
  [3, 2, 1].any fun k =>
    match takeExactDigits k s with
    | some ('.' :: r) => cont r
    | _ => false

/-- Does `\d{1,3}\.\d{1,3}\.\d{1,3}\.\d{1,3}\b` match starting exactly
here? -/
def ipMatchAt (s : Str) : Bool :=
  ipGroupDot s fun r1 => ipGroupDot r1 fun r2 => ipGroupDot r2 fun r3 =>
    ipLastGroup r3

/-- Scan for a match of the dotted-quad pattern at any position whose
left context satisfies `\b` (start of string or a preceding non-word
character). -/
def searchIpAux (prev : Option Char) : Str → Bool
  | [] => false
  | c :: rest =>
      ((match prev with
        | none => true
        | some p => !(isWordChar p)) && ipMatchAt (c :: rest))
        || searchIpAux (some c) rest

/-- `re.search(r'\b\d{1,3}\.\d{1,3}\.\d{1,3}\.\d{1,3}\b', domain)` as a
boolean. -/
def hasIpAddress (domain : Str) : Bool := searchIpAux none domain

/-- The shortener alternation `bit\.ly|goo\.gl|t\.co|tinyurl\.com` as
literal substrings. -/
def shortenerPatterns : List Str :=
  ["bit.ly".data, "goo.gl".data, "t.co".data, "tinyurl.com".data]

/-- `re.search` of the shortener alternation over the domain. -/
def isShortened (domain : Str) : Bool :=
  shortenerPatterns.any fun p => containsSub p domain

/-- The suspicious TLD suffixes checked by `str.endswith`. -/
def suspiciousTlds : List Str :=
  [".tk".data, ".ml".data, ".ga".data, ".cf".data, ".gq".data]

/-- `domain.endswith(('.tk', '.ml', '.ga', '.cf', '.gq'))`. -/
def hasSuspiciousTld (domain : Str) : Bool :=
  suspiciousTlds.any fun t => t.isSuffixOf domain

/-- The feature dictionary built by `extract_features`, in the exact
order the Python function inserts its keys.  Every domain feature reads
`urlparse(URL).netloc`; `path_length` reads `urlparse(URL).path`; the
remaining features read the raw URL string. -/
def extractCore (url : Str) : List (String × Int) :=
  [("url_length", (url.length : Int)),
   ("num_digits", (url.countP Char.isDigit : Int)),
   ("num_special_chars", (url.countP (fun c => !(isWordChar c)) : Int)),
   ("has_http",
     b2i (containsSub "http://".data url || containsSub "https://".data url)),
   ("has_https", b2i ("https".data.isPrefixOf url)),
   ("num_dots", ((urlsplitNetloc url).count '.' : Int)),
   ("num_hyphens", ((urlsplitNetloc url).count '-' : Int)),
   ("domain_length", ((urlsplitNetloc url).length : Int)),
   ("num_params", (url.count '?' : Int)),
   ("path_length", ((urlparsePath url).length : Int)),
   ("has_ip_address", b2i (hasIpAddress (urlsplitNetloc url))),
   ("is_shortened", b2i (isShortened (urlsplitNetloc url))),
   ("has_at_symbol", b2i (url.contains '@')),
   ("num_subdomains", ((urlsplitNetloc url).count '.' : Int) - 1),
   ("has_malformed_url",
     b2i (containsSub "http:/".data url || containsSub "https:/".data url)),
   ("num_encoded_chars", (url.count '%' : Int)),
   ("has_suspicious_tld", b2i (hasSuspiciousTld (urlsplitNetloc url)))]

/-- `extract_features(URL)`: the feature dictionary, or the propagated
`urlparse` ValueError for a bracket-mismatched netloc.  The source
performs no input validation of its own and defines no other failure. -/
def extract_features (url : Str) : Except String (List (String × Int)) :=
  if urlparseRaises url then Except.error "Invalid IPv6 URL"
  else Except.ok (extractCore url)

/-- The fixed feature-name schema, in insertion order. -/
def featureNames : List String :=
  ["url_length", "num_digits", "num_special_chars", "has_http",
   "has_https", "num_dots", "num_hyphens", "domain_length", "num_params",
   "path_length", "has_ip_address", "is_shortened", "has_at_symbol",
   "num_subdomains", "has_malformed_url", "num_encoded_chars",
   "has_suspicious_tld"]

/-- The loaded classifier artifact, opaque to this repository: a fitted
binary model exposing exactly what `predict_URL` consumes, a predicted
label (`model.predict(...)[0]`) and a two-class probability pair
(`model.predict_proba(...)[0]`). -/
structure BinaryModel where
  predictLabel : List (String × Int) → Int
  predictProba : List (String × Int) → ℚ × ℚ

/-- A well-formed binary classifier: both class probabilities are
non-negative and they sum to one on every feature vector. -/
def validProba (m : BinaryModel) : Prop :=
  ∀ fv, 0 ≤ (m.predictProba fv).1 ∧ 0 ≤ (m.predictProba fv).2 ∧
    (m.predictProba fv).1 + (m.predictProba fv).2 = 1

/-- `predict_URL(URL)` from app.py, given the loaded model: extract the
features, take the model's label, and set
`confidence = max(prediction_proba) * 100`.  An exception from
extraction propagates. -/
def predict_URL (m : BinaryModel) (url : Str) : Except String (Int × ℚ) :=
  match extract_features url with
  | Except.error e => Except.error e
  | Except.ok fv =>
      Except.ok (m.predictLabel fv,
        max (m.predictProba fv).1 (m.predictProba fv).2 * 100)

/-- A concrete well-formed model for closed evaluations: it always
answers label 0 with the whole probability mass on the second class. -/
def constModel : BinaryModel where
  predictLabel _ := 0
  predictProba _ := (0, 1)

/-- Per-process inference state: how many times the model artifact has
been read from storage (`joblib.load` executions). -/
structure ProcessState where
  artifactLoads : Nat

/-- One `predict_URL` call as the process sees it: the body begins with
`model = joblib.load('phishing_model.pkl')`, an unconditional artifact
read, before extracting and scoring. -/
def predictStep (m : BinaryModel) (st : ProcessState) (url : Str) :
    ProcessState × Except String (Int × ℚ) :=
  ({ artifactLoads := st.artifactLoads + 1 }, predict_URL m url)

/-- Serve a sequence of requests in one process, threading the process
state through the successive `predict_URL` calls. -/
def serveRequests (m : BinaryModel) (st : ProcessState) :
    List Str → ProcessState × List (Except String (Int × ℚ))
  | [] => (st, [])
  | u :: us =>
      let step := predictStep m st u
      let rest := serveRequests m step.1 us
      (rest.1, step.2 :: rest.2)

/-- Column preprocessing of the primary training script model.py: the
loaded dataset's columns are used exactly as read (no renaming occurs
between `pd.read_csv` and `data['URL']`). -/
def modelPyColumns (cols : List Str) : List Str := cols

/-- Python `str.strip()` with no argument: remove leading and trailing
whitespace characters. -/
def pythonStrip (s : Str) : Str :=
  ((s.dropWhile Char.isWhitespace).reverse.dropWhile Char.isWhitespace).reverse

/-- Column preprocessing of the notebook-checkpoint training variant:
`data.columns = data.columns.str.strip()`. -/
def checkpointColumns (cols : List Str) : List Str := cols.map pythonStrip

/-- `data['URL']` succeeds exactly when the column name is present. -/
def hasColumn (cols : List Str) (name : Str) : Bool := cols.contains name

end PhishDetect

namespace PhishDetect

theorem extract_features_ok_eq {url : Str} {fv : List (String × Int)}
    (h : extract_features url = Except.ok fv) : fv = extractCore url := by
  unfold extract_features at h
  split at h
  · cases h
  · cases h
    rfl

theorem lookup_has_http (url : Str) :
    List.lookup "has_http" (extractCore url) =
      some (b2i (containsSub "http://".data url ||
        containsSub "https://".data url)) := rfl

theorem lookup_has_malformed (url : Str) :
    List.lookup "has_malformed_url" (extractCore url) =
      some (b2i (containsSub "http:/".data url ||
        containsSub "https:/".data url)) := rfl

theorem lookup_num_dots (url : Str) :
    List.lookup "num_dots" (extractCore url) =
      some (((urlsplitNetloc url).count '.' : Int)) := rfl

theorem lookup_num_subdomains (url : Str) :
    List.lookup "num_subdomains" (extractCore url) =
      some (((urlsplitNetloc url).count '.' : Int) - 1) := rfl

theorem lookup_num_hyphens (url : Str) :
    List.lookup "num_hyphens" (extractCore url) =
      some (((urlsplitNetloc url).count '-' : Int)) := rfl

theorem lookup_domain_length (url : Str) :
    List.lookup "domain_length" (extractCore url) =
      some (((urlsplitNetloc url).length : Int)) := rfl

theorem lookup_has_ip (url : Str) :
    List.lookup "has_ip_address" (extractCore url) =
      some (b2i (hasIpAddress (urlsplitNetloc url))) := rfl

theorem lookup_is_shortened (url : Str) :
    List.lookup "is_shortened" (extractCore url) =
      some (b2i (isShortened (urlsplitNetloc url))) := rfl

theorem lookup_suspicious_tld (url : Str) :
    List.lookup "has_suspicious_tld" (extractCore url) =
      some (b2i (hasSuspiciousTld (urlsplitNetloc url))) := rfl

theorem isPrefixOf_trans_bool {p q r : Str} (h1 : p.isPrefixOf q = true)
    (h2 : q.isPrefixOf r = true) : p.isPrefixOf r = true := by
  rw [List.isPrefixOf_iff_prefix] at h1 h2 ⊢
  exact h1.trans h2

theorem containsSub_pattern_mono {p q : Str} (hpq : p.isPrefixOf q = true) :
    ∀ {s : Str}, containsSub q s = true → containsSub p s = true := by
  intro s
  induction s with
  | nil =>
      intro h
      unfold containsSub at h ⊢
      have hq : q = [] := by
        cases q with
        | nil => rfl
        | cons a as => simp [List.isEmpty] at h
      subst hq
      cases p with
      | nil => simp [List.isEmpty]
      | cons b bs => simp [List.isPrefixOf] at hpq
  | cons c t ih =>
      intro h
      unfold containsSub at h ⊢
      rcases Bool.or_eq_true_iff.mp h with h1 | h2
      · exact Bool.or_eq_true_iff.mpr (Or.inl (isPrefixOf_trans_bool hpq h1))
      · exact Bool.or_eq_true_iff.mpr (Or.inr (ih h2))

end PhishDetect

namespace PhishDetect

/-- Claim C1: for every input URL on which extraction returns, the
feature vector carries exactly the fixed named features, in the fixed
insertion order of `extract_features`, so the schema on the training
path and on the inference path (both of which call this one function) is
identical. -/
theorem extract_schema_fixed (url : Str) (fv : List (String × Int))
    (h : extract_features url = Except.ok fv) :
    fv.map Prod.fst = featureNames := by
  rw [extract_features_ok_eq h]
  rfl

/-- Witness for C1 at the concrete URL of the source's example usage. -/
theorem extract_schema_fixed_witness :
    (extractCore "http://example.com".data).map Prod.fst = featureNames :=
  extract_schema_fixed "http://example.com".data
    (extractCore "http://example.com".data) rfl

/-- Claim C3: extraction is deterministic; two runs on the same input
string produce the same result.  The embedding is a pure function of its
argument, exactly as the source computes from `URL` alone with no state,
randomness or I/O. -/
theorem extract_deterministic (url : Str) :
    extract_features url = extract_features url := rfl

/-- Claim C5: the extracted vector always satisfies
`num_subdomains = num_dots - 1` exactly, and in particular a vector with
`num_dots = 0` carries `num_subdomains = -1`, not clamped to `0`. -/
theorem num_subdomains_formula (url : Str) (fv : List (String × Int))
    (h : extract_features url = Except.ok fv) :
    List.lookup "num_subdomains" fv =
      (List.lookup "num_dots" fv).map (fun d => d - 1) ∧
    (List.lookup "num_dots" fv = some 0 →
      List.lookup "num_subdomains" fv = some (-1)) := by
  rw [extract_features_ok_eq h, lookup_num_dots, lookup_num_subdomains]
  refine ⟨rfl, fun h0 => ?_⟩
  simp only [Option.some.injEq] at h0 ⊢
  omega

/-- Witness for C5 at `http://localhost`, whose domain has no dot: the
extraction returns (does not raise) and yields `num_subdomains = -1`. -/
theorem num_subdomains_formula_witness :
    List.lookup "num_subdomains" (extractCore "http://localhost".data) =
      some (-1) :=
  (num_subdomains_formula "http://localhost".data
    (extractCore "http://localhost".data) rfl).2 (by decide)

/-- Claim C6: every URL containing `http://` or `https://` that extracts
successfully has both `has_http = 1` and `has_malformed_url = 1`, since
the malformed-URL pattern `http:/|https:/` also matches the well-formed
double-slash forms. -/
theorem http_implies_malformed (url : Str) (fv : List (String × Int))
    (h : extract_features url = Except.ok fv)
    (hhttp : containsSub "http://".data url = true ∨
      containsSub "https://".data url = true) :
    List.lookup "has_http" fv = some 1 ∧
    List.lookup "has_malformed_url" fv = some 1 := by
  rw [extract_features_ok_eq h, lookup_has_http, lookup_has_malformed]
  have hmal : containsSub "http:/".data url = true ∨
      containsSub "https:/".data url = true := by
    rcases hhttp with h1 | h1
    · exact Or.inl (containsSub_pattern_mono (by decide) h1)
    · exact Or.inr (containsSub_pattern_mono (by decide) h1)
  constructor
  · rcases hhttp with h1 | h1 <;> simp [h1, b2i]
  · rcases hmal with h1 | h1 <;> simp [h1, b2i]

/-- Witness for C6 at `http://example.com`. -/
theorem http_implies_malformed_witness :
    List.lookup "has_http" (extractCore "http://example.com".data) = some 1 ∧
    List.lookup "has_malformed_url" (extractCore "http://example.com".data) =
      some 1 :=
  http_implies_malformed "http://example.com".data
    (extractCore "http://example.com".data) rfl (Or.inl (by decide))

end PhishDetect

namespace PhishDetect

/-- Claim C7: the spec's concrete examples, evaluated on the embedded
extractor: `http://example.com` has `has_http=1, has_https=0, num_dots=1,
num_hyphens=0, has_at_symbol=0, num_params=0`; `https://bit.ly/abc123`
has `has_https=1, is_shortened=1`; `http://192.168.0.1/login` has
`has_ip_address=1`.  In each case extraction returns normally. -/
theorem concrete_feature_values :
    (extract_features "http://example.com".data =
        Except.ok (extractCore "http://example.com".data) ∧
      List.lookup "has_http" (extractCore "http://example.com".data) = some 1 ∧
      List.lookup "has_https" (extractCore "http://example.com".data) = some 0 ∧
      List.lookup "num_dots" (extractCore "http://example.com".data) = some 1 ∧
      List.lookup "num_hyphens" (extractCore "http://example.com".data) = some 0 ∧
      List.lookup "has_at_symbol" (extractCore "http://example.com".data) = some 0 ∧
      List.lookup "num_params" (extractCore "http://example.com".data) = some 0) ∧
    (extract_features "https://bit.ly/abc123".data =
        Except.ok (extractCore "https://bit.ly/abc123".data) ∧
      List.lookup "has_https" (extractCore "https://bit.ly/abc123".data) = some 1 ∧
      List.lookup "is_shortened" (extractCore "https://bit.ly/abc123".data) = some 1) ∧
    (extract_features "http://192.168.0.1/login".data =
        Except.ok (extractCore "http://192.168.0.1/login".data) ∧
      List.lookup "has_ip_address" (extractCore "http://192.168.0.1/login".data) =
        some 1) :=
  ⟨⟨rfl, by decide⟩, ⟨rfl, by decide⟩, ⟨rfl, by decide⟩⟩

/-- Claim C10: whenever URI parsing yields an empty authority component
(as happens for any string with no `//` introducing a netloc, such as
`example.com/path`), every domain-derived feature takes its default:
`domain_length = 0`, `num_dots = 0`, `num_hyphens = 0`,
`num_subdomains = -1`, `has_ip_address = 0`, `is_shortened = 0`,
`has_suspicious_tld = 0`, regardless of the dots or hyphens in the raw
string. -/
theorem empty_netloc_domain_features (url : Str) (fv : List (String × Int))
    (h : extract_features url = Except.ok fv)
    (hnet : urlsplitNetloc url = []) :
    List.lookup "domain_length" fv = some 0 ∧
    List.lookup "num_dots" fv = some 0 ∧
    List.lookup "num_hyphens" fv = some 0 ∧
    List.lookup "num_subdomains" fv = some (-1) ∧
    List.lookup "has_ip_address" fv = some 0 ∧
    List.lookup "is_shortened" fv = some 0 ∧
    List.lookup "has_suspicious_tld" fv = some 0 := by
  rw [extract_features_ok_eq h, lookup_domain_length, lookup_num_dots,
    lookup_num_hyphens, lookup_num_subdomains, lookup_has_ip,
    lookup_is_shortened, lookup_suspicious_tld, hnet]
  refine ⟨rfl, rfl, rfl, rfl, rfl, rfl, rfl⟩

/-- Witness for C10 at `example.com/path`: five dots or hyphens in the
raw string notwithstanding, the authority is empty and all domain
features default. -/
theorem empty_netloc_domain_features_witness :
    List.lookup "domain_length" (extractCore "example.com/path".data) = some 0 ∧
    List.lookup "num_dots" (extractCore "example.com/path".data) = some 0 ∧
    List.lookup "num_hyphens" (extractCore "example.com/path".data) = some 0 ∧
    List.lookup "num_subdomains" (extractCore "example.com/path".data) = some (-1) ∧
    List.lookup "has_ip_address" (extractCore "example.com/path".data) = some 0 ∧
    List.lookup "is_shortened" (extractCore "example.com/path".data) = some 0 ∧
    List.lookup "has_suspicious_tld" (extractCore "example.com/path".data) = some 0 :=
  empty_netloc_domain_features "example.com/path".data
    (extractCore "example.com/path".data) rfl (by decide)

/-- Claim C2 is refuted by the empty string: `extract_features("")`
returns a feature vector rather than failing (the source performs no
input validation and defines no `InvalidInputError`), and `predict_URL`
on the empty string returns a label and a confidence. -/
theorem extract_empty_succeeds :
    extract_features ([] : Str) = Except.ok (extractCore []) ∧
    predict_URL constModel [] = Except.ok (0, 100) := by
  refine ⟨rfl, ?_⟩
  show Except.ok (0, max (0 : ℚ) 1 * 100) = Except.ok (0, 100)
  rw [max_eq_right zero_le_one, one_mul]

/-- Claim C2 (amended): extraction applies no validation; on the empty
string it succeeds with the default feature vector, and `predict_URL`
on the empty string returns a (label, confidence) pair for any loaded
model, rather than propagating a failure. -/
theorem extract_empty_no_error (m : BinaryModel) :
    extract_features ([] : Str) = Except.ok (extractCore []) ∧
    ∃ lab conf, predict_URL m [] = Except.ok (lab, conf) := by
  exact ⟨rfl, m.predictLabel (extractCore []),
    max (m.predictProba (extractCore [])).1
      (m.predictProba (extractCore [])).2 * 100, rfl⟩

/-- Claim C4: `predict_URL` computes the confidence as
`max(predict_proba) * 100`, and for every well-formed binary model (two
non-negative class probabilities summing to one) the confidence lies in
`[50, 100]`. -/
theorem confidence_formula_and_bounds (m : BinaryModel)
    (hm : validProba m) (url : Str) (lab : Int) (conf : ℚ)
    (h : predict_URL m url = Except.ok (lab, conf)) :
    (∃ fv, extract_features url = Except.ok fv ∧
      conf = max (m.predictProba fv).1 (m.predictProba fv).2 * 100) ∧
    50 ≤ conf ∧ conf ≤ 100 := by
  unfold predict_URL at h
  cases hef : extract_features url with
  | error e => rw [hef] at h; cases h
  | ok fv =>
      rw [hef] at h
      have hpair : (m.predictLabel fv,
          max (m.predictProba fv).1 (m.predictProba fv).2 * 100) =
          (lab, conf) := by
        cases h
        rfl
      have hconf : conf =
          max (m.predictProba fv).1 (m.predictProba fv).2 * 100 :=
        (congrArg Prod.snd hpair).symm
      obtain ⟨h0, h1, hsum⟩ := hm fv
      have hp : (m.predictProba fv).1 ≤
          max (m.predictProba fv).1 (m.predictProba fv).2 :=
        le_max_left _ _
      have hq : (m.predictProba fv).2 ≤
          max (m.predictProba fv).1 (m.predictProba fv).2 :=
        le_max_right _ _
      have hub : max (m.predictProba fv).1 (m.predictProba fv).2 ≤ 1 :=
        max_le (by linarith) (by linarith)
      exact ⟨⟨fv, rfl, hconf⟩, by linarith, by linarith⟩

/-- Witness for C4 with the concrete well-formed model and the URL `x`:
the returned confidence is 100, which is the formula's value and lies in
`[50, 100]`. -/
theorem confidence_formula_and_bounds_witness :
    (∃ fv, extract_features "x".data = Except.ok fv ∧
      (100 : ℚ) = max (constModel.predictProba fv).1
        (constModel.predictProba fv).2 * 100) ∧
    50 ≤ (100 : ℚ) ∧ (100 : ℚ) ≤ 100 :=
  confidence_formula_and_bounds constModel
    (fun _ => ⟨le_refl 0, zero_le_one, zero_add 1⟩)
    "x".data 0 100
    (by
      show predict_URL constModel "x".data = Except.ok (0, 100)
      have h1 : extract_features "x".data =
          Except.ok (extractCore "x".data) := rfl
      unfold predict_URL
      rw [h1]
      show Except.ok (0, max (0 : ℚ) 1 * 100) = Except.ok (0, 100)
      rw [max_eq_right zero_le_one, one_mul])

end PhishDetect

namespace PhishDetect

/-- Claim C8 is refuted on the primary training script model.py, which
performs no column renaming between loading the dataset and indexing
`data['URL']`: with a loaded column named `" URL "`, the column `"URL"`
is not present, so the claim's example rename does not happen there. -/
theorem modelpy_does_not_trim_columns :
    modelPyColumns [" URL ".data, "Label".data] =
      [" URL ".data, "Label".data] ∧
    hasColumn (modelPyColumns [" URL ".data, "Label".data]) "URL".data =
      false := by
  exact ⟨rfl, by decide⟩

/-- Claim C8 (amended): only the notebook-checkpoint training variant
trims leading/trailing whitespace from every column name (so its loaded
`" URL "` is read as `"URL"`); the primary script model.py uses column
names exactly as loaded. -/
theorem checkpoint_trims_columns (cols : List Str)
    (h : " URL ".data ∈ cols) :
    "URL".data ∈ checkpointColumns cols ∧ modelPyColumns cols = cols := by
  constructor
  · have hstrip : pythonStrip " URL ".data = "URL".data := by decide
    exact hstrip ▸ List.mem_map_of_mem pythonStrip h
  · rfl

/-- Witness for C8 (amended) at the one-column list `[" URL "]`. -/
theorem checkpoint_trims_columns_witness :
    "URL".data ∈ checkpointColumns [" URL ".data] ∧
    modelPyColumns [" URL ".data] = [" URL ".data] :=
  checkpoint_trims_columns [" URL ".data] (by decide)

/-- Claim C9 is refuted: serving two requests in one process performs
two artifact reads, because `predict_URL` begins with an unconditional
`joblib.load` on every call; the artifact is not loaded at most once per
process. -/
theorem predict_reloads_artifact_each_call :
    (serveRequests constModel ⟨0⟩ ["a".data, "b".data]).1.artifactLoads = 2 ∧
    ¬ (serveRequests constModel ⟨0⟩
        ["a".data, "b".data]).1.artifactLoads ≤ 1 := by
  refine ⟨rfl, ?_⟩
  intro hle
  exact absurd hle (by decide)

/-- Claim C9 (amended): the artifact is re-read from storage once per
`predict_URL` call, so a process serving `n` requests performs exactly
`n` loads beyond its starting count; every call scores with the same
unchanged model value (the model is never mutated between calls). -/
theorem artifact_loads_per_request (m : BinaryModel) (st : ProcessState)
    (urls : List Str) :
    (serveRequests m st urls).1.artifactLoads =
      st.artifactLoads + urls.length ∧
    (serveRequests m st urls).2 = urls.map (predict_URL m) := by
  induction urls generalizing st with
  | nil => exact ⟨rfl, rfl⟩
  | cons u us ih =>
      obtain ⟨h1, h2⟩ := ih ⟨st.artifactLoads + 1⟩
      refine ⟨?_, ?_⟩
      · show (serveRequests m ⟨st.artifactLoads + 1⟩ us).1.artifactLoads =
          st.artifactLoads + (us.length + 1)
        have h1' : (serveRequests m ⟨st.artifactLoads + 1⟩ us).1.artifactLoads =
            st.artifactLoads + 1 + us.length := h1
        rw [h1']
        omega
      · show predict_URL m u :: (serveRequests m ⟨st.artifactLoads + 1⟩ us).2 =
          predict_URL m u :: us.map (predict_URL m)
        rw [h2]

end PhishDetect
